import Mathlib

set_option maxRecDepth 2000

/-!
Shallow embedding of the heat-grid analysis pipeline (`src/processing.py`,
`src/noaa_ingest.py`).  SQL tables become lists of structure values; SQL
queries become pure list functions.  Timestamps truncated to a day are
represented by their integer day number (`epoch(day)/86400`, exact for DATE
values); hour timestamps by integer hours since the epoch, so that
`DATE_TRUNC('day', hour_utc)` is floor division by 24.  DOUBLE columns are
embedded as `ℚ` (nullable ones as `Option ℚ`).
-/

namespace HeatGrid

/-! ### Calendar helpers: day numbers for UTC calendar dates -/

/-- Gregorian leap-year test. -/
def isLeapYear (y : Nat) : Bool :=
  (y % 4 == 0 && y % 100 != 0) || (y % 400 == 0)

/-- Days in month `m` (1–12) of year `y`. -/
def daysInMonth (y m : Nat) : Nat :=
  if m = 2 then (if isLeapYear y then 29 else 28)
  else if m = 4 ∨ m = 6 ∨ m = 9 ∨ m = 11 then 30
  else 31

def daysInYear (y : Nat) : Nat := if isLeapYear y then 366 else 365

/-- Days from 1970-01-01 to January 1 of year `1970 + n`. -/
def daysBeforeYear : Nat → Nat
  | 0 => 0
  | n + 1 => daysBeforeYear n + daysInYear (1970 + n)

/-- Days from January 1 of year `y` to the first day of month `m`. -/
def daysBeforeMonth (y : Nat) : Nat → Nat
  | 0 => 0
  | 1 => 0
  | m + 1 => daysBeforeMonth y m + daysInMonth y m

/-- Day number (days since 1970-01-01) of the calendar date `y-m-d`;
this is `CAST(epoch(day) / 86400 AS BIGINT)` for a DuckDB DATE. -/
def epochDay (y m d : Nat) : Int :=
  (daysBeforeYear (y - 1970) + daysBeforeMonth y m + (d - 1) : Nat)

/-- `DATE_TRUNC('day', hour_utc)` on an hours-since-epoch timestamp:
floor division by 24 (Euclidean division, floor for the positive divisor). -/
def dayOfHour (h : Int) : Int := Int.ediv h 24

/-! ### `noaa_ingest.load_noaa_hourly`: the cleaned-temperature expression

The `noaa_hourly_temp` column
`CASE WHEN split_part(TMP, ',', 1) = '+9999' THEN NULL
      ELSE TRY_CAST(split_part(TMP, ',', 1) AS INTEGER) / 10.0 END`.
-/

/-- Characters of `s` before the first comma: `split_part(s, ',', 1)`. -/
def takeUntilComma : List Char → List Char
  | [] => []
  | c :: cs => if c = ',' then [] else c :: takeUntilComma cs

/-- DuckDB `split_part(s, ',', 1)`. -/
def split_part1 (s : String) : String := String.mk (takeUntilComma s.data)

/-- Reads a nonempty all-digit suffix into a number (`none` on any
non-digit or on the empty list). -/
def digitsToNat : List Char → Nat → Option Nat
  | [], _ => none
  | [c], acc => if c.isDigit then some (acc * 10 + (c.toNat - 48)) else none
  | c :: cs, acc =>
      if c.isDigit then digitsToNat cs (acc * 10 + (c.toNat - 48)) else none

/-- DuckDB `TRY_CAST(s AS INTEGER)` on an optionally signed decimal string:
`none` when the string does not parse. -/
def try_cast_int (s : String) : Option Int :=
  match s.data with
  | '-' :: cs => (digitsToNat cs 0).map (fun n => -(n : Int))
  | '+' :: cs => (digitsToNat cs 0).map (fun n => (n : Int))
  | cs => (digitsToNat cs 0).map (fun n => (n : Int))

/-- The cleaned `temp_C` expression of `noaa_hourly_temp`; `NULL / 10.0`
propagates to `NULL`, hence the `Option.map`. -/
def temp_C_expr (tmp : String) : Option ℚ :=
  if split_part1 tmp = "+9999" then none
  else (try_cast_int (split_part1 tmp)).map (fun n => (n : ℚ) / 10)

/-! ### `processing.build_noaa_daily`: hourly → daily temperature -/

/-- A row of `noaa_hourly_avg`: one (possibly null) average temperature per
(station, hour). -/
structure HourlyAvgRow where
  station : String
  hour_utc : Int
  temp_C : Option ℚ
  deriving DecidableEq, Repr

/-- SQL `MAX` over a group of nullable values: nulls ignored, `NULL` when
every value is null. -/
def sqlMaxQ (vs : List (Option ℚ)) : Option ℚ :=
  match vs.filterMap id with
  | [] => none
  | x :: xs => some (xs.foldl max x)

/-- SQL `AVG` over a group of nullable values: nulls ignored, `NULL` when
every value is null. -/
def sqlAvgQ (vs : List (Option ℚ)) : Option ℚ :=
  match vs.filterMap id with
  | [] => none
  | x :: xs => some ((x :: xs).sum / ((x :: xs).length : ℚ))

/-- A row of `noaa_daily_temp`. -/
structure DailyTempRow where
  station : String
  day_utc : Int
  daily_max_temp_C : Option ℚ
  avg_temp_C : Option ℚ
  deriving DecidableEq, Repr

/-- The `GROUP BY station, day_utc` keys of `build_noaa_daily` (one key per
distinct (station, day) pair occurring in the hourly table). -/
def dailyKeys (rows : List HourlyAvgRow) : List (String × Int) :=
  (rows.map (fun r => (r.station, dayOfHour r.hour_utc))).dedup

/-- `CREATE TABLE noaa_daily_temp AS SELECT station, DATE_TRUNC('day',
hour_utc), MAX(temp_C), AVG(temp_C) FROM noaa_hourly_avg GROUP BY station,
day_utc` — one output row per group key, aggregates over the group's
(possibly null) hourly values. -/
def build_noaa_daily (rows : List HourlyAvgRow) : List DailyTempRow :=
  (dailyKeys rows).map (fun k =>
    let vs := ((rows.filter (fun r =>
      r.station == k.1 && dayOfHour r.hour_utc == k.2)).map (fun r => r.temp_C))
    ⟨k.1, k.2, sqlMaxQ vs, sqlAvgQ vs⟩)

/-! ### `processing.build_noaa_heatwave_flags` -/

/-- The hot-day threshold, hard-coded as `32.22` in the SQL. -/
def HEAT_THRESHOLD_C : ℚ := 3222 / 100

/-- `CASE WHEN daily_max_temp_C >= 32.22 THEN 1 ELSE 0 END`: a NULL
comparison is not true, so a null daily max is never hot. -/
def is_hot_day (t : Option ℚ) : Bool :=
  match t with
  | some v => decide (HEAT_THRESHOLD_C ≤ v)
  | none => false

/-- A row of the `base` CTE (`day_utc` already day-truncated, so `day_date`
coincides with it and both are this one day number). -/
structure BaseRow where
  station : String
  day_utc : Int
  daily_max_temp_C : Option ℚ
  avg_temp_C : Option ℚ
  is_hot_day : Bool
  deriving DecidableEq, Repr

/-- The `base` CTE. -/
def base (rows : List DailyTempRow) : List BaseRow :=
  rows.map (fun r =>
    ⟨r.station, r.day_utc, r.daily_max_temp_C, r.avg_temp_C,
     is_hot_day r.daily_max_temp_C⟩)

/-- `ROW_NUMBER()` starting at `rn` over a list in its given order. -/
def rowNumberFrom (rn : Nat) : List Int → List (Nat × Int)
  | [] => []
  | d :: ds => (rn, d) :: rowNumberFrom (rn + 1) ds

/-- The `hot_days` CTE restricted to one partition: the station's hot days
with `ROW_NUMBER() OVER (PARTITION BY station ORDER BY day_date)`.  The
daily table is stored ordered by (station, day) — `build_noaa_daily`'s
`ORDER BY` — so within a station the filtered subsequence is already in
`day_date` order and the window row number is the position in it. -/
def hotList (rows : List DailyTempRow) (st : String) : List Int :=
  ((base rows).filter (fun b => b.station == st && b.is_hot_day)).map
    (fun b => b.day_utc)

def hot_days (rows : List DailyTempRow) (st : String) : List (Nat × Int) :=
  rowNumberFrom 1 (hotList rows st)

/-- The `(day_date, grp_id = day_number - rn)` pairs of the `hot_grouped`
CTE, as a function of a numbered day list. -/
def grpList (hs : List Int) : List (Int × Int) :=
  (rowNumberFrom 1 hs).map (fun p => (p.2, p.2 - (p.1 : Int)))

/-- The `hot_grouped` CTE for one station. -/
def hot_grouped (rows : List DailyTempRow) (st : String) : List (Int × Int) :=
  grpList (hotList rows st)

/-- `heatwave_groups` (`HAVING COUNT(*) >= 3`) joined back to days: of a
grouped day list, the days whose `grp_id` occurs at least 3 times. -/
def hwDaysOf (gl : List (Int × Int)) : List Int :=
  (gl.filter (fun p => decide (3 ≤ gl.countP (fun q => q.2 == p.2)))).map
    (fun p => p.1)

/-- The `heatwave_days` CTE for one station. -/
def heatwave_days_for (rows : List DailyTempRow) (st : String) : List Int :=
  hwDaysOf (hot_grouped rows st)

/-- The distinct stations of the daily table (the window partitions). -/
def stations (rows : List DailyTempRow) : List String :=
  (rows.map (fun r => r.station)).dedup

/-- The full `heatwave_days` CTE: `PARTITION BY station` is the union of
the per-station computations over the distinct stations. -/
def heatwave_days (rows : List DailyTempRow) : List (String × Int) :=
  (stations rows).flatMap (fun st =>
    (heatwave_days_for rows st).map (fun d => (st, d)))

/-- A row of `noaa_heatwave_flags`. -/
structure HeatwaveFlagRow where
  station : String
  day_utc : Int
  daily_max_temp_C : Option ℚ
  avg_temp_C : Option ℚ
  is_hot_day : Bool
  is_heatwave_day : Bool
  deriving DecidableEq, Repr

/-- The final SELECT of `build_noaa_heatwave_flags`: `base LEFT JOIN
heatwave_days hd ON station AND day_date`, flag
`CASE WHEN hd.day_date IS NOT NULL THEN 1 ELSE 0 END`.  A LEFT JOIN emits
one row per match, or a single flag-0 row when there is none. -/
def noaa_heatwave_flags (rows : List DailyTempRow) : List HeatwaveFlagRow :=
  (base rows).flatMap (fun b =>
    let ms := (heatwave_days rows).filter (fun hd =>
      hd.1 == b.station && hd.2 == b.day_utc)
    if ms.isEmpty then
      [⟨b.station, b.day_utc, b.daily_max_temp_C, b.avg_temp_C,
        b.is_hot_day, false⟩]
    else
      ms.map (fun _ =>
        ⟨b.station, b.day_utc, b.daily_max_temp_C, b.avg_temp_C,
         b.is_hot_day, true⟩))

/-! ### `processing.build_eia_daily_load` -/

/-- A row of `eia_load_hourly`. -/
structure LoadHourlyRow where
  region : String
  hour_utc : Int
  load_mwh : ℚ
  deriving DecidableEq, Repr

/-- A row of `eia_daily_load`. -/
structure DailyLoadRow where
  region : String
  day_utc : Int
  daily_total_mwh : ℚ
  daily_peak_mwh : ℚ
  deriving DecidableEq, Repr

/-- SQL `MAX` over a group of non-null values (groups are never empty, so
the `[]` default is never reached). -/
def listMaxQ : List ℚ → ℚ
  | [] => 0
  | x :: xs => xs.foldl max x

/-- The `GROUP BY region, day_utc` keys of `build_eia_daily_load`, taken
over the `hourly_unique` rows. -/
def loadKeys (hu : List LoadHourlyRow) : List (String × Int) :=
  (hu.map (fun r => (r.region, dayOfHour r.hour_utc))).dedup

/-- `CREATE TABLE eia_daily_load AS WITH hourly_unique AS (SELECT DISTINCT
region, hour_utc, load_mwh FROM eia_load_hourly) SELECT region,
date_trunc('day', hour_utc), SUM(load_mwh), MAX(load_mwh) FROM
hourly_unique GROUP BY region, day_utc`.  Note the DISTINCT is over all
three columns, so two rows for the same (region, hour) with different
load values both survive it. -/
def build_eia_daily_load (rows : List LoadHourlyRow) : List DailyLoadRow :=
  let hu := rows.dedup
  (loadKeys hu).map (fun k =>
    let vs := ((hu.filter (fun r =>
      r.region == k.1 && dayOfHour r.hour_utc == k.2)).map (fun r => r.load_mwh))
    ⟨k.1, k.2, vs.sum, listMaxQ vs⟩)

/-! ### `processing.heat_load_daily` -/

/-- The output `region` column:
`CASE WHEN station = 'IAD' THEN 'PJM' WHEN station = 'BOS' THEN 'ISNE' END`
— no ELSE branch, so any other station gets NULL. -/
def regionLabel (st : String) : Option String :=
  if st == "IAD" then some "PJM"
  else if st == "BOS" then some "ISNE"
  else none

/-- The join key of the ON clause:
`CASE WHEN n.station = 'IAD' THEN 'PJM' ELSE 'ISNE' END`. -/
def joinRegion (st : String) : String :=
  if st == "IAD" then "PJM" else "ISNE"

/-- A row of `heat_load_daily`. -/
structure HeatLoadRow where
  station : String
  region : Option String
  day_utc : Int
  daily_max_temp_C : Option ℚ
  avg_temp_C : Option ℚ
  is_hot_day : Bool
  is_heatwave_day : Bool
  daily_total_mwh : Option ℚ
  daily_peak_mwh : Option ℚ
  deriving DecidableEq, Repr

/-- `noaa_heatwave_flags n LEFT JOIN eia_daily_load e ON e.region =
joinRegion(n.station) AND e.day_utc = n.day_utc`: one output row per
match, or a single null-load row when there is none. -/
def heat_load_daily (ns : List HeatwaveFlagRow) (es : List DailyLoadRow) :
    List HeatLoadRow :=
  ns.flatMap (fun n =>
    let ms := es.filter (fun e =>
      e.region == joinRegion n.station && e.day_utc == n.day_utc)
    if ms.isEmpty then
      [⟨n.station, regionLabel n.station, n.day_utc, n.daily_max_temp_C,
        n.avg_temp_C, n.is_hot_day, n.is_heatwave_day, none, none⟩]
    else
      ms.map (fun e =>
        ⟨n.station, regionLabel n.station, n.day_utc, n.daily_max_temp_C,
         n.avg_temp_C, n.is_hot_day, n.is_heatwave_day,
         some e.daily_total_mwh, some e.daily_peak_mwh⟩))

/-! ### Proof-layer notions for the run-detection argument -/

/-- The day value at index `i` of a hot-day list. -/
def dAt (hs : List Int) (i : Nat) : Int := hs.getD i 0

/-- The `grp_id` at index `i` of a hot-day list: day minus (1-based) rank. -/
def gAt (hs : List Int) (i : Nat) : Int := dAt hs i - ((i : Int) + 1)

/-- Day `d` is recorded for station `st` in the daily table and classified
hot by the threshold rule. -/
def HotDayAt (rows : List DailyTempRow) (st : String) (d : Int) : Prop :=
  ∃ r ∈ rows, r.station = st ∧ r.day_utc = d ∧
    is_hot_day r.daily_max_temp_C = true

/-- Days `a, a+1, …, a+L-1` are all hot for station `st`, while `a-1` and
`a+L` are not: a maximal run of exactly `L` consecutive hot days. -/
def MaximalHotRun (rows : List DailyTempRow) (st : String) (a : Int)
    (L : Nat) : Prop :=
  (∀ k : Nat, k < L → HotDayAt rows st (a + k)) ∧
    ¬ HotDayAt rows st (a - 1) ∧ ¬ HotDayAt rows st (a + L)

/-! ### Concrete inputs used by the scenario claims -/

/-- Station X, six consecutive days 2024-07-01 .. 2024-07-06 (day numbers
19905 .. 19910, see `heatwave_flags_concrete_scenario`) with daily maxima
`[30, 33, 34, 35, 31, 20]`. -/
def scenarioRows : List DailyTempRow :=
  [⟨"X", 19905, some 30, none⟩,
   ⟨"X", 19906, some 33, none⟩,
   ⟨"X", 19907, some 34, none⟩,
   ⟨"X", 19908, some 35, none⟩,
   ⟨"X", 19909, some 31, none⟩,
   ⟨"X", 19910, some 20, none⟩]

/-- The same six days but with the 2024-07-03 daily maximum missing. -/
def scenarioRowsNull : List DailyTempRow :=
  [⟨"X", 19905, some 30, none⟩,
   ⟨"X", 19906, some 33, none⟩,
   ⟨"X", 19907, none, none⟩,
   ⟨"X", 19908, some 35, none⟩,
   ⟨"X", 19909, some 31, none⟩,
   ⟨"X", 19910, some 20, none⟩]

/-- C1: on the six-day scenario `[30, 33, 34, 35, 31, 20]` starting
2024-07-01 with threshold 32.22, the detector computes
`is_hot_day = [F,T,T,T,F,F]` and `is_heatwave_day = [F,T,T,T,F,F]` (the
3-day hot run 07-02..07-04 qualifies as a heatwave). -/
theorem heatwave_flags_concrete_scenario :
    epochDay 2024 7 1 = 19905 ∧ epochDay 2024 7 6 = 19910 ∧
    noaa_heatwave_flags scenarioRows =
      [⟨"X", 19905, some 30, none, false, false⟩,
       ⟨"X", 19906, some 33, none, true, true⟩,
       ⟨"X", 19907, some 34, none, true, true⟩,
       ⟨"X", 19908, some 35, none, true, true⟩,
       ⟨"X", 19909, some 31, none, false, false⟩,
       ⟨"X", 19910, some 20, none, false, false⟩] := by
  refine ⟨by decide, by decide, ?_⟩
  norm_num [noaa_heatwave_flags, base, heatwave_days, stations, heatwave_days_for,
    hwDaysOf, hot_grouped, grpList, hot_days, hotList, rowNumberFrom, is_hot_day,
    HEAT_THRESHOLD_C, scenarioRows, List.dedup_cons_of_mem, List.dedup_cons_of_not_mem,
    List.filter_cons, List.countP_cons]

/-- C3: a null daily maximum is never hot, and it breaks a run exactly
like a non-hot day: with `[30, 33, null, 35, 31, 20]` from 2024-07-01 the
only hot days are 07-02 and 07-04 (not consecutive), so every
`is_heatwave_day` is false. -/
theorem null_day_breaks_run :
    epochDay 2024 7 1 = 19905 ∧
    is_hot_day none = false ∧
    noaa_heatwave_flags scenarioRowsNull =
      [⟨"X", 19905, some 30, none, false, false⟩,
       ⟨"X", 19906, some 33, none, true, false⟩,
       ⟨"X", 19907, none, none, false, false⟩,
       ⟨"X", 19908, some 35, none, true, false⟩,
       ⟨"X", 19909, some 31, none, false, false⟩,
       ⟨"X", 19910, some 20, none, false, false⟩] := by
  refine ⟨by decide, rfl, ?_⟩
  norm_num [noaa_heatwave_flags, base, heatwave_days, stations, heatwave_days_for,
    hwDaysOf, hot_grouped, grpList, hot_days, hotList, rowNumberFrom, is_hot_day,
    HEAT_THRESHOLD_C, scenarioRowsNull, List.dedup_cons_of_mem, List.dedup_cons_of_not_mem,
    List.filter_cons, List.countP_cons]

/-- C5 counterexample: a station-day all of whose hourly readings are null
still produces a daily row (with null aggregates), so the daily row count
for the station is 1 while the count of distinct days with at least one
non-null hourly reading is 0. -/
theorem noaa_daily_count_claim_false :
    ¬ (((build_noaa_daily [⟨"IAD", 0, none⟩]).filter
          (fun r => r.station == "IAD")).length
        = ((([⟨"IAD", 0, none⟩] : List HourlyAvgRow).filter
              (fun r => r.station == "IAD" && r.temp_C.isSome)).map
            (fun r => dayOfHour r.hour_utc)).dedup.length) := by
  with_unfolding_all decide

/-- C6: a flags row for station NYC — which has no entry in the inline
station→region CASE mapping — does not abort the run: `heat_load_daily`
still produces an output row for it, with a NULL region, its load fields
joined from region ISNE. -/
theorem unmapped_station_no_error :
    heat_load_daily [⟨"NYC", 19905, some 35, none, true, false⟩]
        [⟨"ISNE", 19905, 500, 100⟩]
      = [⟨"NYC", none, 19905, some 35, none, true, false,
          some 500, some 100⟩] := by
  simp [heat_load_daily, regionLabel, joinRegion, List.filter_cons]

/-- C7 counterexample: a raw TMP field `-9999` is not treated as missing:
the cleaned temperature is `-999.9`, not NULL (only `+9999` is caught by
the sentinel CASE). -/
theorem sentinel_minus9999_not_null :
    temp_C_expr "-9999" = some (-(9999 / 10 : ℚ)) ∧
    temp_C_expr "-9999" ≠ none := by
  have h1 : split_part1 "-9999" = "-9999" := by decide
  have h2 : try_cast_int "-9999" = some (-9999) := by decide
  rw [temp_C_expr, h1, if_neg (by decide), h2]
  refine ⟨by norm_num, ?_⟩
  exact Option.some_ne_none _

/-- C8: `SELECT DISTINCT region, hour_utc, load_mwh` does not collapse two
observations of the same (region, hour) with different values: with hourly
loads 100 and 150 for one hour, the daily total is 250 — both duplicates
are summed — instead of one representative value. -/
theorem duplicate_hours_summed :
    build_eia_daily_load [⟨"PJM", 0, 100⟩, ⟨"PJM", 0, 150⟩]
      = [⟨"PJM", 0, 250, 150⟩] := by
  with_unfolding_all decide

/-- C9 counterexample: with hourly loads 100 and −50 on one region-day, a
positive hourly reading exists, yet the daily peak (100) exceeds the
daily total (50). -/
theorem peak_le_total_claim_false :
    ∃ out ∈ build_eia_daily_load [⟨"PJM", 0, 100⟩, ⟨"PJM", 1, -50⟩],
      (∃ r ∈ ([⟨"PJM", 0, 100⟩, ⟨"PJM", 1, -50⟩] : List LoadHourlyRow),
        r.region = out.region ∧ dayOfHour r.hour_utc = out.day_utc ∧
        0 < r.load_mwh) ∧
      ¬ out.daily_peak_mwh ≤ out.daily_total_mwh := by
  with_unfolding_all decide

/-! ### Index lemmas for the date-minus-rank grouping -/

theorem rowNumberFrom_eq (hs : List Int) (k : Nat) :
    rowNumberFrom k hs
      = (List.range hs.length).map (fun i => (k + i, hs.getD i 0)) := by
  induction hs generalizing k with
  | nil => rfl
  | cons d ds ih =>
    have htail :
        List.map ((fun i => (k + i, (d :: ds).getD i 0)) ∘ Nat.succ)
            (List.range ds.length)
          = List.map (fun i => (k + 1 + i, ds.getD i 0)) (List.range ds.length) := by
      refine List.map_congr_left ?_
      intro i _
      simp only [Function.comp_apply, List.getD_cons_succ, Prod.mk.injEq]
      constructor
      · omega
      · trivial
    calc rowNumberFrom k (d :: ds)
        = (k, d) :: rowNumberFrom (k + 1) ds := rfl
      _ = (k, d) :: List.map (fun i => (k + 1 + i, ds.getD i 0))
            (List.range ds.length) := by rw [ih]
      _ = (k + 0, (d :: ds).getD 0 0)
            :: List.map ((fun i => (k + i, (d :: ds).getD i 0)) ∘ Nat.succ)
              (List.range ds.length) := by rw [htail]; simp
      _ = (List.range (d :: ds).length).map
            (fun i => (k + i, (d :: ds).getD i 0)) := by
            rw [List.length_cons, List.range_succ_eq_map, List.map_cons,
              List.map_map]

theorem grpList_eq (hs : List Int) :
    grpList hs = (List.range hs.length).map (fun i => (dAt hs i, gAt hs i)) := by
  rw [grpList, rowNumberFrom_eq, List.map_map]
  refine List.map_congr_left ?_
  intro i hi
  show (hs.getD i 0, hs.getD i 0 - ((1 + i : Nat) : Int)) = (dAt hs i, gAt hs i)
  rw [dAt, gAt, dAt]
  have h2 : ((1 + i : Nat) : Int) = (i : Int) + 1 := by omega
  rw [h2]

theorem dAt_eq_getElem (hs : List Int) (i : Nat) (h : i < hs.length) :
    dAt hs i = hs[i] := by
  simp [dAt, List.getD_eq_getElem?_getD, List.getElem?_eq_getElem h]

theorem mem_iff_dAt (hs : List Int) (d : Int) :
    d ∈ hs ↔ ∃ i, i < hs.length ∧ dAt hs i = d := by
  rw [List.mem_iff_getElem]
  constructor
  · rintro ⟨i, h, rfl⟩
    exact ⟨i, h, dAt_eq_getElem hs i h⟩
  · rintro ⟨i, h, hd⟩
    exact ⟨i, h, by rw [← hd, dAt_eq_getElem hs i h]⟩

theorem dAt_lt_dAt (hs : List Int) (hp : hs.Pairwise (· < ·)) {i j : Nat}
    (hij : i < j) (hj : j < hs.length) : dAt hs i < dAt hs j := by
  have hi : i < hs.length := lt_trans hij hj
  rw [dAt_eq_getElem hs i hi, dAt_eq_getElem hs j hj]
  exact List.pairwise_iff_getElem.mp hp i j hi hj hij

theorem dAt_add_le (hs : List Int) (hp : hs.Pairwise (· < ·)) :
    ∀ k i : Nat, i + k < hs.length → dAt hs i + (k : Int) ≤ dAt hs (i + k) := by
  intro k
  induction k with
  | zero => intro i h; simp
  | succ k ih =>
    intro i h
    have h1 : dAt hs (i + k) < dAt hs (i + (k + 1)) :=
      dAt_lt_dAt hs hp (by omega) h
    have h2 := ih i (by omega)
    push_cast at h2 ⊢
    omega

theorem gAt_mono (hs : List Int) (hp : hs.Pairwise (· < ·)) {i j : Nat}
    (hij : i ≤ j) (hj : j < hs.length) : gAt hs i ≤ gAt hs j := by
  have h := dAt_add_le hs hp (j - i) i (by omega)
  have he : i + (j - i) = j := by omega
  rw [he] at h
  unfold gAt
  omega

theorem dAt_of_gAt_eq (hs : List Int) {i j : Nat}
    (hg : gAt hs i = gAt hs j) : dAt hs j = dAt hs i + ((j : Int) - i) := by
  unfold gAt at hg
  omega

theorem gAt_eq_between (hs : List Int) (hp : hs.Pairwise (· < ·)) {i k j : Nat}
    (h1 : i ≤ k) (h2 : k ≤ j) (hj : j < hs.length)
    (hg : gAt hs i = gAt hs j) : gAt hs k = gAt hs i := by
  have ha := gAt_mono hs hp h1 (lt_of_le_of_lt h2 hj)
  have hb := gAt_mono hs hp h2 hj
  omega

theorem index_lt_of_dAt_lt (hs : List Int) (hp : hs.Pairwise (· < ·)) {i j : Nat}
    (hi : i < hs.length) (h : dAt hs i < dAt hs j) : i < j := by
  by_contra hc
  push_neg at hc
  rcases Nat.eq_or_lt_of_le hc with heq | hlt
  · rw [heq] at h
    omega
  · have := dAt_lt_dAt hs hp hlt hi
    omega

theorem index_eq_of_dAt_eq (hs : List Int) (hp : hs.Pairwise (· < ·)) {i j : Nat}
    (hi : i < hs.length) (hj : j < hs.length) (h : dAt hs i = dAt hs j) :
    i = j := by
  rcases Nat.lt_trichotomy i j with hlt | heq | hgt
  · have := dAt_lt_dAt hs hp hlt hj
    omega
  · exact heq
  · have := dAt_lt_dAt hs hp hgt hi
    omega

theorem grpList_countP (hs : List Int) (v : Int) :
    (grpList hs).countP (fun q => q.2 == v)
      = ((List.range hs.length).filter (fun i => gAt hs i == v)).length := by
  rw [grpList_eq, List.countP_map, List.countP_eq_length_filter]
  rfl

/-- Core correctness of the date-minus-rank grouping: a day of a strictly
increasing hot-day list is kept by the `COUNT(*) >= 3` group filter
exactly when it lies inside a block of three calendar-consecutive hot
days. -/
theorem mem_hwDaysOf_iff (hs : List Int) (hp : hs.Pairwise (· < ·)) (d : Int) :
    d ∈ hwDaysOf (grpList hs)
      ↔ d ∈ hs ∧ ∃ b : Int, b ≤ d ∧ d ≤ b + 2 ∧
          b ∈ hs ∧ b + 1 ∈ hs ∧ b + 2 ∈ hs := by
  constructor
  · intro hd
    rcases List.mem_map.mp hd with ⟨p, hpf, hp1⟩
    rcases List.mem_filter.mp hpf with ⟨hpg, hcond⟩
    rw [grpList_eq] at hpg
    rcases List.mem_map.mp hpg with ⟨i, hir, hpi⟩
    have hi : i < hs.length := List.mem_range.mp hir
    have hdi : dAt hs i = d := by rw [← hp1, ← hpi]
    have hcount : 3 ≤ ((List.range hs.length).filter
        (fun x => gAt hs x == gAt hs i)).length := by
      have h0 := of_decide_eq_true hcond
      rw [← hpi] at h0
      rw [grpList_countP] at h0
      exact h0
    set F := (List.range hs.length).filter (fun x => gAt hs x == gAt hs i)
      with hFdef
    have hFmem : ∀ w ∈ F, w < hs.length ∧ gAt hs w = gAt hs i := by
      intro w hw
      rcases List.mem_filter.mp hw with ⟨hw1, hw2⟩
      exact ⟨List.mem_range.mp hw1, by simpa using hw2⟩
    have hFp : F.Pairwise (· < ·) :=
      (List.pairwise_lt_range hs.length).filter _
    obtain ⟨x, y, z, t, hF⟩ : ∃ x y z t, F = x :: y :: z :: t := by
      rcases F with _ | ⟨x, F1⟩
      · simp at hcount
      rcases F1 with _ | ⟨y, F2⟩
      · simp at hcount
      rcases F2 with _ | ⟨z, F3⟩
      · simp at hcount
      exact ⟨x, y, z, F3, rfl⟩
    have hxy : x < y := by
      rw [hF] at hFp
      exact (List.pairwise_cons.mp hFp).1 y (by simp)
    have hyz : y < z := by
      rw [hF] at hFp
      exact (List.pairwise_cons.mp (List.pairwise_cons.mp hFp).2).1 z (by simp)
    have hxm := hFmem x (by rw [hF]; simp)
    have hzm := hFmem z (by rw [hF]; simp)
    have him : i ∈ F := by
      rw [hFdef]
      exact List.mem_filter.mpr ⟨List.mem_range.mpr hi, by simp⟩
    obtain ⟨m, M, hgm, hgM, hMn, hmi, hiM, hmM⟩ :
        ∃ m M, gAt hs m = gAt hs i ∧ gAt hs M = gAt hs i ∧
          M < hs.length ∧ m ≤ i ∧ i ≤ M ∧ m + 2 ≤ M := by
      rcases le_or_lt i x with hix | hxi
      · exact ⟨i, z, rfl, hzm.2, hzm.1, le_refl i, by omega, by omega⟩
      · rcases le_or_lt i z with hiz | hzi
        · exact ⟨x, z, hxm.2, hzm.2, hzm.1, by omega, hiz, by omega⟩
        · exact ⟨x, i, hxm.2, rfl, hi, by omega, le_refl i, by omega⟩
    obtain ⟨k0, hk0m, hk0M, hik0, hik2⟩ :
        ∃ k0, m ≤ k0 ∧ k0 + 2 ≤ M ∧ k0 ≤ i ∧ i ≤ k0 + 2 := by
      refine ⟨if i ≤ m + 2 then m else i - 2, ?_, ?_, ?_, ?_⟩ <;> split <;> omega
    have hgmM : gAt hs m = gAt hs M := by rw [hgm, hgM]
    have hg0 : gAt hs k0 = gAt hs i := by
      rw [← hgm]
      exact gAt_eq_between hs hp hk0m (by omega) hMn hgmM
    have hg1 : gAt hs (k0 + 1) = gAt hs i := by
      rw [← hgm]
      exact gAt_eq_between hs hp (by omega) (by omega) hMn hgmM
    have hg2 : gAt hs (k0 + 2) = gAt hs i := by
      rw [← hgm]
      exact gAt_eq_between hs hp (by omega) (by omega) hMn hgmM
    have e1 := dAt_of_gAt_eq hs (hg0.trans hg1.symm)
    have e2 := dAt_of_gAt_eq hs (hg0.trans hg2.symm)
    have ei := dAt_of_gAt_eq hs hg0
    refine ⟨(mem_iff_dAt hs d).mpr ⟨i, hi, hdi⟩, dAt hs k0, ?_, ?_, ?_, ?_, ?_⟩
    · rw [← hdi, ei]; omega
    · rw [← hdi, ei]; omega
    · exact (mem_iff_dAt hs _).mpr ⟨k0, by omega, rfl⟩
    · refine (mem_iff_dAt hs _).mpr ⟨k0 + 1, by omega, ?_⟩
      rw [e1]; push_cast; omega
    · refine (mem_iff_dAt hs _).mpr ⟨k0 + 2, by omega, ?_⟩
      rw [e2]; push_cast; omega
  · rintro ⟨hdm, b, hbd, hdb, hb0, hb1, hb2⟩
    rcases (mem_iff_dAt hs d).mp hdm with ⟨i, hi, hdi⟩
    rcases (mem_iff_dAt hs b).mp hb0 with ⟨j0, hj0, hdj0⟩
    rcases (mem_iff_dAt hs (b + 1)).mp hb1 with ⟨j1, hj1, hdj1⟩
    rcases (mem_iff_dAt hs (b + 2)).mp hb2 with ⟨j2, hj2, hdj2⟩
    have h01 : j0 < j1 := index_lt_of_dAt_lt hs hp hj0 (by omega)
    have h12 : j1 < j2 := index_lt_of_dAt_lt hs hp hj1 (by omega)
    have hj01 : j1 = j0 + 1 := by
      by_contra hne
      have hmid : j0 + 1 < j1 := by omega
      have hx : dAt hs j0 < dAt hs (j0 + 1) := dAt_lt_dAt hs hp (by omega) (by omega)
      have hy : dAt hs (j0 + 1) < dAt hs j1 := dAt_lt_dAt hs hp hmid hj1
      omega
    have hj12 : j2 = j1 + 1 := by
      by_contra hne
      have hmid : j1 + 1 < j2 := by omega
      have hx : dAt hs j1 < dAt hs (j1 + 1) := dAt_lt_dAt hs hp (by omega) (by omega)
      have hy : dAt hs (j1 + 1) < dAt hs j2 := dAt_lt_dAt hs hp hmid hj2
      omega
    have hd1 : dAt hs (j0 + 1) = b + 1 := by rw [← hj01]; exact hdj1
    have hd2 : dAt hs (j0 + 2) = b + 2 := by
      have h2 : j0 + 2 = j2 := by omega
      rw [h2]
      exact hdj2
    have hj1n : j0 + 1 < hs.length := by omega
    have hj2n : j0 + 2 < hs.length := by omega
    have hg01 : gAt hs j0 = gAt hs (j0 + 1) := by
      unfold gAt
      push_cast
      omega
    have hg02 : gAt hs j0 = gAt hs (j0 + 2) := by
      unfold gAt
      push_cast
      omega
    have hdcase : d = b ∨ d = b + 1 ∨ d = b + 2 := by omega
    have hgi : gAt hs i = gAt hs j0 := by
      rcases hdcase with hc | hc | hc
      · rw [index_eq_of_dAt_eq hs hp hi hj0 (by omega)]
      · rw [index_eq_of_dAt_eq hs hp hi hj1n
          (show dAt hs i = dAt hs (j0 + 1) by omega), ← hg01]
      · rw [index_eq_of_dAt_eq hs hp hi hj2n
          (show dAt hs i = dAt hs (j0 + 2) by omega), ← hg02]
    have hsub : [j0, j0 + 1, j0 + 2] ⊆
        (List.range hs.length).filter (fun x => gAt hs x == gAt hs i) := by
      intro w hw
      have hw3 : w = j0 ∨ w = j0 + 1 ∨ w = j0 + 2 := by simpa using hw
      have hwn : w < hs.length := by omega
      refine List.mem_filter.mpr ⟨List.mem_range.mpr hwn, ?_⟩
      have hgw : gAt hs w = gAt hs i := by
        rcases hw3 with rfl | rfl | rfl
        · rw [hgi]
        · rw [hgi, ← hg01]
        · rw [hgi, ← hg02]
      simp [hgw]
    have hnd : ([j0, j0 + 1, j0 + 2] : List Nat).Nodup := by
      simp [List.nodup_cons]
    have hlen : 3 ≤ ((List.range hs.length).filter
        (fun x => gAt hs x == gAt hs i)).length := by
      have := (hnd.subperm hsub).length_le
      simpa using this
    refine List.mem_map.mpr ⟨(dAt hs i, gAt hs i), ?_, hdi⟩
    refine List.mem_filter.mpr ⟨?_, ?_⟩
    · rw [grpList_eq]
      exact List.mem_map.mpr ⟨i, List.mem_range.mpr hi, rfl⟩
    · refine decide_eq_true ?_
      show 3 ≤ (grpList hs).countP (fun q => q.2 == gAt hs i)
      rw [grpList_countP]
      exact hlen

/-! ### Per-station plumbing for the flag characterization -/

theorem hotList_eq (rows : List DailyTempRow) (st : String) :
    hotList rows st
      = ((rows.filter (fun r => r.station == st)).filter
          (fun r => is_hot_day r.daily_max_temp_C)).map (fun r => r.day_utc) := by
  induction rows with
  | nil => rfl
  | cons r t ih =>
    by_cases h1 : r.station == st <;> by_cases h2 : is_hot_day r.daily_max_temp_C <;>
      simp only [hotList, base, List.map_cons, List.filter_cons, h1, h2,
        Bool.and_self, Bool.and_false, Bool.false_and, Bool.and_true,
        Bool.true_and, if_true, if_false] <;>
      simpa [hotList, base] using ih

theorem hotList_pairwise (rows : List DailyTempRow) (st : String)
    (hsorted : ((rows.filter (fun r => r.station == st)).map
        (fun r => r.day_utc)).Chain' (· < ·)) :
    (hotList rows st).Pairwise (· < ·) := by
  have hpw := List.chain'_iff_pairwise.mp hsorted
  rw [hotList_eq]
  exact List.Pairwise.sublist ((List.filter_sublist _).map _) hpw

theorem hotDayAt_iff_mem (rows : List DailyTempRow) (st : String) (d : Int) :
    HotDayAt rows st d ↔ d ∈ hotList rows st := by
  constructor
  · rintro ⟨r, hr, hst, hday, hhot⟩
    refine List.mem_map.mpr
      ⟨⟨r.station, r.day_utc, r.daily_max_temp_C, r.avg_temp_C,
        is_hot_day r.daily_max_temp_C⟩, ?_, hday⟩
    refine List.mem_filter.mpr ⟨List.mem_map.mpr ⟨r, hr, rfl⟩, ?_⟩
    simp [hst, hhot]
  · intro hd
    rcases List.mem_map.mp hd with ⟨b, hbf, hbd⟩
    rcases List.mem_filter.mp hbf with ⟨hbm, hbp⟩
    rcases List.mem_map.mp hbm with ⟨r, hr, hrb⟩
    subst hrb
    simp only [Bool.and_eq_true, beq_iff_eq] at hbp
    exact ⟨r, hr, hbp.1, hbd, hbp.2⟩

theorem mem_heatwave_days_iff (rows : List DailyTempRow) (st : String) (d : Int) :
    (st, d) ∈ heatwave_days rows ↔
      (st ∈ rows.map (fun r => r.station) ∧ d ∈ heatwave_days_for rows st) := by
  constructor
  · intro h
    rcases List.mem_flatMap.mp h with ⟨s, hsm, hmem⟩
    rcases List.mem_map.mp hmem with ⟨d0, hd0, heq⟩
    rcases Prod.mk.injEq .. ▸ heq with ⟨rfl, rfl⟩
    exact ⟨List.mem_dedup.mp hsm, hd0⟩
  · rintro ⟨hst, hd⟩
    exact List.mem_flatMap.mpr
      ⟨st, List.mem_dedup.mpr hst, List.mem_map.mpr ⟨d, hd, rfl⟩⟩

theorem exists_flag_row (rows : List DailyTempRow) (r : DailyTempRow)
    (hr : r ∈ rows) :
    ∃ out ∈ noaa_heatwave_flags rows,
      out.station = r.station ∧ out.day_utc = r.day_utc := by
  have hb : (⟨r.station, r.day_utc, r.daily_max_temp_C, r.avg_temp_C,
      is_hot_day r.daily_max_temp_C⟩ : BaseRow) ∈ base rows :=
    List.mem_map.mpr ⟨r, hr, rfl⟩
  unfold noaa_heatwave_flags
  by_cases hms : ((heatwave_days rows).filter (fun hd =>
      hd.1 == r.station && hd.2 == r.day_utc)).isEmpty
  · refine ⟨⟨r.station, r.day_utc, r.daily_max_temp_C, r.avg_temp_C,
      is_hot_day r.daily_max_temp_C, false⟩, ?_, rfl, rfl⟩
    refine List.mem_flatMap.mpr ⟨_, hb, ?_⟩
    simp only [hms, if_true]
    exact List.mem_singleton.mpr rfl
  · have hne : ((heatwave_days rows).filter (fun hd =>
        hd.1 == r.station && hd.2 == r.day_utc)) ≠ [] := by
      intro h0
      rw [h0] at hms
      exact hms rfl
    rcases List.exists_mem_of_ne_nil _ hne with ⟨p, hp⟩
    refine ⟨⟨r.station, r.day_utc, r.daily_max_temp_C, r.avg_temp_C,
      is_hot_day r.daily_max_temp_C, true⟩, ?_, rfl, rfl⟩
    refine List.mem_flatMap.mpr ⟨_, hb, ?_⟩
    simp only [hms, if_false, Bool.false_eq_true]
    exact List.mem_map.mpr ⟨p, hp, rfl⟩

/-- Master characterization of the computed `is_heatwave_day` flag: for a
station whose daily rows are stored in increasing day order, an output row
is flagged exactly when its day is hot and lies inside some block of three
calendar-consecutive hot days of that station. -/
theorem is_heatwave_day_iff (rows : List DailyTempRow) (st : String)
    (hsorted : ((rows.filter (fun r => r.station == st)).map
        (fun r => r.day_utc)).Chain' (· < ·))
    (out : HeatwaveFlagRow) (hout : out ∈ noaa_heatwave_flags rows)
    (hst : out.station = st) :
    out.is_heatwave_day = true ↔
      (HotDayAt rows st out.day_utc ∧
        ∃ b : Int, b ≤ out.day_utc ∧ out.day_utc ≤ b + 2 ∧
          HotDayAt rows st b ∧ HotDayAt rows st (b + 1) ∧
          HotDayAt rows st (b + 2)) := by
  have hp : (hotList rows st).Pairwise (· < ·) := hotList_pairwise rows st hsorted
  have hchar := mem_hwDaysOf_iff (hotList rows st) hp out.day_utc
  unfold noaa_heatwave_flags at hout
  rcases List.mem_flatMap.mp hout with ⟨bRow, hbm, hbo⟩
  by_cases hms : ((heatwave_days rows).filter (fun hd =>
      hd.1 == bRow.station && hd.2 == bRow.day_utc)).isEmpty
  · simp only [hms, if_true] at hbo
    have hout_eq := List.mem_singleton.mp hbo
    have hflag : out.is_heatwave_day = false := by rw [hout_eq]
    have hstb : bRow.station = st := by rw [← hst, hout_eq]
    have hdayb : bRow.day_utc = out.day_utc := by rw [hout_eq]
    rw [hflag]
    simp only [Bool.false_eq_true, false_iff]
    rintro ⟨hhot, hb, hb1, hb2, h0, h1, h2⟩
    have hdmem : out.day_utc ∈ heatwave_days_for rows st := by
      refine hchar.mpr ⟨(hotDayAt_iff_mem rows st _).mp hhot, hb, hb1, hb2,
        (hotDayAt_iff_mem rows st _).mp h0, (hotDayAt_iff_mem rows st _).mp h1,
        (hotDayAt_iff_mem rows st _).mp h2⟩
    have hstmem : st ∈ rows.map (fun r => r.station) := by
      rcases hhot with ⟨r, hr, hrst, _, _⟩
      exact List.mem_map.mpr ⟨r, hr, hrst⟩
    have hpair : (st, out.day_utc) ∈ heatwave_days rows :=
      (mem_heatwave_days_iff rows st out.day_utc).mpr ⟨hstmem, hdmem⟩
    have hpf : (st, out.day_utc) ∈ (heatwave_days rows).filter (fun hd =>
        hd.1 == bRow.station && hd.2 == bRow.day_utc) := by
      refine List.mem_filter.mpr ⟨hpair, ?_⟩
      simp [hstb, hdayb]
    rw [List.isEmpty_iff.mp hms] at hpf
    exact absurd hpf (List.not_mem_nil _)
  · simp only [hms, if_false, Bool.false_eq_true] at hbo
    rcases List.mem_map.mp hbo with ⟨p, hpm, hout_eq⟩
    have hflag : out.is_heatwave_day = true := by rw [← hout_eq]
    have hstb : bRow.station = st := by rw [← hst, ← hout_eq]
    have hdayb : bRow.day_utc = out.day_utc := by rw [← hout_eq]
    rw [hflag]
    simp only [true_iff]
    rcases List.mem_filter.mp hpm with ⟨hphw, hpeq⟩
    simp only [Bool.and_eq_true, beq_iff_eq] at hpeq
    have hpair : (st, out.day_utc) ∈ heatwave_days rows := by
      have : p = (st, out.day_utc) := by
        rcases p with ⟨p1, p2⟩
        simp only at hpeq
        rw [Prod.mk.injEq]
        exact ⟨hpeq.1.trans hstb, hpeq.2.trans hdayb⟩
      rwa [this] at hphw
    have hmem := ((mem_heatwave_days_iff rows st out.day_utc).mp hpair).2
    rcases hchar.mp hmem with ⟨hdm, b, hb1, hb2, h0, h1, h2⟩
    exact ⟨(hotDayAt_iff_mem rows st _).mpr hdm, b, hb1, hb2,
      (hotDayAt_iff_mem rows st _).mpr h0, (hotDayAt_iff_mem rows st _).mpr h1,
      (hotDayAt_iff_mem rows st _).mpr h2⟩

/-- C2: for a station with day-sorted daily rows, a maximal run of exactly
2 consecutive hot days leaves `is_heatwave_day` false on both days; a
maximal run of exactly 3 makes it true on all three; and in a maximal
5-day run every one of the 5 days is flagged (no internal gaps).  Each day
of the run does appear in the output, and every output row for it carries
the stated flag. -/
theorem heatwave_run_boundary (rows : List DailyTempRow) (st : String)
    (hsorted : ((rows.filter (fun r => r.station == st)).map
        (fun r => r.day_utc)).Chain' (· < ·)) :
    (∀ a : Int, MaximalHotRun rows st a 2 → ∀ d : Int, d = a ∨ d = a + 1 →
      (∃ out ∈ noaa_heatwave_flags rows, out.station = st ∧ out.day_utc = d) ∧
      ∀ out ∈ noaa_heatwave_flags rows, out.station = st → out.day_utc = d →
        out.is_heatwave_day = false) ∧
    (∀ a : Int, MaximalHotRun rows st a 3 →
      ∀ d : Int, d = a ∨ d = a + 1 ∨ d = a + 2 →
      (∃ out ∈ noaa_heatwave_flags rows, out.station = st ∧ out.day_utc = d) ∧
      ∀ out ∈ noaa_heatwave_flags rows, out.station = st → out.day_utc = d →
        out.is_heatwave_day = true) ∧
    (∀ a : Int, MaximalHotRun rows st a 5 → ∀ d : Int, a ≤ d → d ≤ a + 4 →
      (∃ out ∈ noaa_heatwave_flags rows, out.station = st ∧ out.day_utc = d) ∧
      ∀ out ∈ noaa_heatwave_flags rows, out.station = st → out.day_utc = d →
        out.is_heatwave_day = true) := by
  have hex : ∀ d : Int, HotDayAt rows st d →
      ∃ out ∈ noaa_heatwave_flags rows, out.station = st ∧ out.day_utc = d := by
    intro d hd
    rcases hd with ⟨r, hr, hrst, hrd, _⟩
    rcases exists_flag_row rows r hr with ⟨out, ho, he1, he2⟩
    exact ⟨out, ho, he1.trans hrst, he2.trans hrd⟩
  refine ⟨?_, ?_, ?_⟩
  · rintro a ⟨hhot, hprev, hnext⟩ d hd
    have h0 : HotDayAt rows st a := by simpa using hhot 0 (by norm_num)
    have h1 : HotDayAt rows st (a + 1) := by simpa using hhot 1 (by norm_num)
    have hnext2 : ¬ HotDayAt rows st (a + 2) := by simpa using hnext
    have hd_hot : HotDayAt rows st d := by
      rcases hd with rfl | rfl <;> assumption
    refine ⟨hex d hd_hot, ?_⟩
    intro out ho hsta hday
    have hiff := is_heatwave_day_iff rows st hsorted out ho hsta
    rw [hday] at hiff
    by_contra hflag
    rw [Bool.not_eq_false] at hflag
    rcases hiff.mp hflag with ⟨_, b, hb1, hb2, hB0, hB1, hB2⟩
    have hcases : (a - 1 = b ∨ a - 1 = b + 1 ∨ a - 1 = b + 2) ∨
        (a + 2 = b ∨ a + 2 = b + 1 ∨ a + 2 = b + 2) := by
      rcases hd with rfl | rfl <;> omega
    rcases hcases with (hc | hc | hc) | (hc | hc | hc)
    · exact hprev (by rw [hc]; exact hB0)
    · exact hprev (by rw [hc]; exact hB1)
    · exact hprev (by rw [hc]; exact hB2)
    · exact hnext2 (by rw [hc]; exact hB0)
    · exact hnext2 (by rw [hc]; exact hB1)
    · exact hnext2 (by rw [hc]; exact hB2)
  · rintro a ⟨hhot, _, _⟩ d hd
    have h0 : HotDayAt rows st a := by simpa using hhot 0 (by norm_num)
    have h1 : HotDayAt rows st (a + 1) := by simpa using hhot 1 (by norm_num)
    have h2 : HotDayAt rows st (a + 2) := by simpa using hhot 2 (by norm_num)
    have hd_hot : HotDayAt rows st d := by
      rcases hd with rfl | rfl | rfl <;> assumption
    refine ⟨hex d hd_hot, ?_⟩
    intro out ho hsta hday
    have hiff := is_heatwave_day_iff rows st hsorted out ho hsta
    rw [hday] at hiff
    rcases hd with hc | hc | hc <;>
      exact hiff.mpr ⟨hd_hot, a, by omega, by omega, h0, h1, h2⟩
  · rintro a ⟨hhot, _, _⟩ d hdl hdr
    have h0 : HotDayAt rows st a := by simpa using hhot 0 (by norm_num)
    have h1 : HotDayAt rows st (a + 1) := by simpa using hhot 1 (by norm_num)
    have h2 : HotDayAt rows st (a + 2) := by simpa using hhot 2 (by norm_num)
    have h3 : HotDayAt rows st (a + 3) := by simpa using hhot 3 (by norm_num)
    have h4 : HotDayAt rows st (a + 4) := by simpa using hhot 4 (by norm_num)
    have hdc : d = a ∨ d = a + 1 ∨ d = a + 2 ∨ d = a + 3 ∨ d = a + 4 := by omega
    have hd_hot : HotDayAt rows st d := by
      rcases hdc with rfl | rfl | rfl | rfl | rfl <;> assumption
    refine ⟨hex d hd_hot, ?_⟩
    intro out ho hsta hday
    have hiff := is_heatwave_day_iff rows st hsorted out ho hsta
    rw [hday] at hiff
    rcases hdc with hc | hc | hc | hc | hc
    · exact hiff.mpr ⟨hd_hot, a, by omega, by omega, h0, h1, h2⟩
    · exact hiff.mpr ⟨hd_hot, a, by omega, by omega, h0, h1, h2⟩
    · exact hiff.mpr ⟨hd_hot, a, by omega, by omega, h0, h1, h2⟩
    · refine hiff.mpr ⟨hd_hot, a + 1, by omega, by omega, h1, ?_, ?_⟩
      · rw [show a + 1 + 1 = a + 2 by omega]
        exact h2
      · rw [show a + 1 + 2 = a + 3 by omega]
        exact h3
    · refine hiff.mpr ⟨hd_hot, a + 2, by omega, by omega, h2, ?_, ?_⟩
      · rw [show a + 2 + 1 = a + 3 by omega]
        exact h3
      · rw [show a + 2 + 2 = a + 4 by omega]
        exact h4

/-- Station X, days 10…14 with daily maxima `[20, 40, 40, 40, 20]`: a
maximal run of exactly 3 hot days at days 11, 12, 13. -/
def runRows : List DailyTempRow :=
  [⟨"X", 10, some 20, none⟩,
   ⟨"X", 11, some 40, none⟩,
   ⟨"X", 12, some 40, none⟩,
   ⟨"X", 13, some 40, none⟩,
   ⟨"X", 14, some 20, none⟩]

theorem heatwave_run_boundary_witness :
    (((runRows.filter (fun r => r.station == "X")).map
        (fun r => r.day_utc)).Chain' (· < ·)) ∧
    MaximalHotRun runRows "X" 11 3 ∧
    (∃ out ∈ noaa_heatwave_flags runRows,
      out.station = "X" ∧ out.day_utc = 12) ∧
    (∀ out ∈ noaa_heatwave_flags runRows, out.station = "X" →
      out.day_utc = 12 → out.is_heatwave_day = true) := by
  have hlist : (runRows.filter (fun r => r.station == "X")).map
      (fun r => r.day_utc) = [10, 11, 12, 13, 14] := by decide
  have hs : ((runRows.filter (fun r => r.station == "X")).map
      (fun r => r.day_utc)).Chain' (· < ·) := by
    rw [hlist]
    simp [List.chain'_cons]
  have hot11 : HotDayAt runRows "X" 11 :=
    ⟨⟨"X", 11, some 40, none⟩, by decide, rfl, rfl,
      by norm_num [is_hot_day, HEAT_THRESHOLD_C]⟩
  have hot12 : HotDayAt runRows "X" 12 :=
    ⟨⟨"X", 12, some 40, none⟩, by decide, rfl, rfl,
      by norm_num [is_hot_day, HEAT_THRESHOLD_C]⟩
  have hot13 : HotDayAt runRows "X" 13 :=
    ⟨⟨"X", 13, some 40, none⟩, by decide, rfl, rfl,
      by norm_num [is_hot_day, HEAT_THRESHOLD_C]⟩
  have hcold : ∀ d : Int, d = 10 ∨ d = 14 → ¬ HotDayAt runRows "X" d := by
    rintro d hd ⟨r, hr, hst, hday, hhot⟩
    simp only [runRows, List.mem_cons, List.not_mem_nil, or_false] at hr
    rcases hr with rfl | rfl | rfl | rfl | rfl
    · norm_num [is_hot_day, HEAT_THRESHOLD_C] at hhot
    · simp only at hday
      omega
    · simp only at hday
      omega
    · simp only at hday
      omega
    · norm_num [is_hot_day, HEAT_THRESHOLD_C] at hhot
  have hrun : MaximalHotRun runRows "X" 11 3 := by
    refine ⟨?_, ?_, ?_⟩
    · intro k hk
      interval_cases k
      · simpa using hot11
      · simpa using hot12
      · simpa using hot13
    · rw [show (11 : ℤ) - 1 = 10 by norm_num]
      exact hcold 10 (Or.inl rfl)
    · rw [show (11 : ℤ) + ((3 : ℕ) : ℤ) = 14 by norm_num]
      exact hcold 14 (Or.inr rfl)
  have h := (heatwave_run_boundary runRows "X" hs).2.1 11 hrun 12
    (Or.inr (Or.inl (by norm_num)))
  exact ⟨hs, hrun, h.1, h.2⟩

/-! ### Row-count invariants of the final join -/

theorem build_eia_keys_eq (hourly : List LoadHourlyRow) :
    (build_eia_daily_load hourly).map (fun e => (e.region, e.day_utc))
      = loadKeys hourly.dedup := by
  unfold build_eia_daily_load
  rw [List.map_map]
  calc (loadKeys hourly.dedup).map _
      = (loadKeys hourly.dedup).map (fun k => k) :=
        List.map_congr_left (fun k _ => rfl)
    _ = loadKeys hourly.dedup := List.map_id' _

theorem build_eia_keys_nodup (hourly : List LoadHourlyRow) :
    ((build_eia_daily_load hourly).map
      (fun e => (e.region, e.day_utc))).Nodup := by
  rw [build_eia_keys_eq]
  exact List.nodup_dedup _

theorem filter_key_length_le_one (rg : String) (dy : Int) :
    ∀ es : List DailyLoadRow,
      (es.map (fun e => (e.region, e.day_utc))).Nodup →
      (es.filter (fun e => e.region == rg && e.day_utc == dy)).length ≤ 1 := by
  intro es
  induction es with
  | nil => intro _; simp
  | cons e t ih =>
    intro hnd
    rw [List.map_cons, List.nodup_cons] at hnd
    rcases hnd with ⟨hne, hnd2⟩
    rw [List.filter_cons]
    by_cases hp : (e.region == rg && e.day_utc == dy) = true
    · rw [if_pos hp]
      have ht : t.filter (fun x => x.region == rg && x.day_utc == dy) = [] := by
        rw [List.filter_eq_nil_iff]
        intro x hx hpx
        apply hne
        simp only [Bool.and_eq_true, beq_iff_eq] at hp hpx
        refine List.mem_map.mpr ⟨x, hx, ?_⟩
        rw [Prod.mk.injEq]
        exact ⟨hpx.1.trans hp.1.symm, hpx.2.trans hp.2.symm⟩
      rw [ht]
      simp
    · rw [if_neg hp]
      exact ih hnd2

/-- C4: the final join emits exactly one `heat_load_daily` row per flagged
daily temperature row — the output row count equals the input row count
for every input, because the daily load table built by
`build_eia_daily_load` has unique (region, day) keys — and a flags row
with no matching daily load row still appears in the output, with null
`daily_total_mwh` and `daily_peak_mwh`. -/
theorem heat_load_daily_row_count (ns : List HeatwaveFlagRow)
    (hourly : List LoadHourlyRow) :
    (heat_load_daily ns (build_eia_daily_load hourly)).length = ns.length ∧
    ∀ n ∈ ns, (∀ e ∈ build_eia_daily_load hourly,
        ¬ (e.region = joinRegion n.station ∧ e.day_utc = n.day_utc)) →
      (⟨n.station, regionLabel n.station, n.day_utc, n.daily_max_temp_C,
        n.avg_temp_C, n.is_hot_day, n.is_heatwave_day, none, none⟩ :
        HeatLoadRow) ∈ heat_load_daily ns (build_eia_daily_load hourly) := by
  constructor
  · induction ns with
    | nil => rfl
    | cons n t ih =>
      unfold heat_load_daily at ih ⊢
      rw [List.flatMap_cons, List.length_append, ih, List.length_cons]
      have hle := filter_key_length_le_one (joinRegion n.station) n.day_utc
        (build_eia_daily_load hourly) (build_eia_keys_nodup hourly)
      by_cases hms : ((build_eia_daily_load hourly).filter (fun e =>
          e.region == joinRegion n.station && e.day_utc == n.day_utc)).isEmpty
      · simp only [hms, if_true, List.length_singleton]
        omega
      · simp only [hms, if_false, Bool.false_eq_true, List.length_map]
        have hpos : ((build_eia_daily_load hourly).filter (fun e =>
            e.region == joinRegion n.station && e.day_utc == n.day_utc)) ≠ [] := by
          intro h0
          rw [h0] at hms
          exact hms rfl
        have := List.length_pos.mpr hpos
        omega
  · intro n hn hnomatch
    have hempty : (build_eia_daily_load hourly).filter (fun e =>
        e.region == joinRegion n.station && e.day_utc == n.day_utc) = [] := by
      rw [List.filter_eq_nil_iff]
      intro e he hpe
      simp only [Bool.and_eq_true, beq_iff_eq] at hpe
      exact hnomatch e he ⟨hpe.1, hpe.2⟩
    unfold heat_load_daily
    refine List.mem_flatMap.mpr ⟨n, hn, ?_⟩
    rw [hempty]
    simp

theorem heat_load_daily_row_count_witness :
    (⟨"ATL", none, 0, some 30, none, false, false, none, none⟩ : HeatLoadRow)
      ∈ heat_load_daily [⟨"ATL", 0, some 30, none, false, false⟩]
          (build_eia_daily_load []) := by
  have h := (heat_load_daily_row_count
      [⟨"ATL", 0, some 30, none, false, false⟩] []).2
    ⟨"ATL", 0, some 30, none, false, false⟩ (by simp) (by simp [build_eia_daily_load, loadKeys])
  simpa [regionLabel] using h

/-- C10: every `heat_load_daily` output row whose station is neither
`IAD` nor `BOS` carries a null `region` column, while its load columns
come from joining the daily load table at region `ISNE` for its day: they
are copied from an `ISNE` row of that day when one exists, and are null
exactly when no `ISNE` row exists for that day. -/
theorem fallthrough_join_region (ns : List HeatwaveFlagRow)
    (es : List DailyLoadRow) :
    ∀ out ∈ heat_load_daily ns es, out.station ≠ "IAD" →
      out.station ≠ "BOS" →
      out.region = none ∧
      ((∃ e ∈ es, e.region = "ISNE" ∧ e.day_utc = out.day_utc ∧
          out.daily_total_mwh = some e.daily_total_mwh ∧
          out.daily_peak_mwh = some e.daily_peak_mwh) ∨
        (out.daily_total_mwh = none ∧ out.daily_peak_mwh = none ∧
          ¬ ∃ e ∈ es, e.region = "ISNE" ∧ e.day_utc = out.day_utc)) := by
  intro out ho hnIAD hnBOS
  unfold heat_load_daily at ho
  rcases List.mem_flatMap.mp ho with ⟨n, hn, hbo⟩
  by_cases hms : (es.filter (fun e =>
      e.region == joinRegion n.station && e.day_utc == n.day_utc)).isEmpty
  · simp only [hms, if_true] at hbo
    have hout := List.mem_singleton.mp hbo
    have hstn : n.station = out.station := by rw [hout]
    have hn1 : n.station ≠ "IAD" := by rw [hstn]; exact hnIAD
    have hn2 : n.station ≠ "BOS" := by rw [hstn]; exact hnBOS
    have hdayn : n.day_utc = out.day_utc := by rw [hout]
    have hjr : joinRegion n.station = "ISNE" := by
      simp [joinRegion, hn1]
    constructor
    · rw [hout]
      simp [regionLabel, hn1, hn2]
    · right
      refine ⟨by rw [hout], by rw [hout], ?_⟩
      rintro ⟨e, he, her, hed⟩
      have hmem : e ∈ es.filter (fun e =>
          e.region == joinRegion n.station && e.day_utc == n.day_utc) := by
        refine List.mem_filter.mpr ⟨he, ?_⟩
        simp [her, hed, hjr, hdayn]
      rw [List.isEmpty_iff.mp hms] at hmem
      exact List.not_mem_nil _ hmem
  · simp only [hms, if_false, Bool.false_eq_true] at hbo
    rcases List.mem_map.mp hbo with ⟨e, hef, hout⟩
    rcases List.mem_filter.mp hef with ⟨hee, hep⟩
    simp only [Bool.and_eq_true, beq_iff_eq] at hep
    have hstn : n.station = out.station := by rw [← hout]
    have hn1 : n.station ≠ "IAD" := by rw [hstn]; exact hnIAD
    have hn2 : n.station ≠ "BOS" := by rw [hstn]; exact hnBOS
    have hdayn : n.day_utc = out.day_utc := by rw [← hout]
    have hjr : joinRegion n.station = "ISNE" := by
      simp [joinRegion, hn1]
    constructor
    · rw [← hout]
      simp [regionLabel, hn1, hn2]
    · left
      refine ⟨e, hee, ?_, ?_, ?_, ?_⟩
      · rw [hep.1, hjr]
      · rw [hep.2, hdayn]
      · rw [← hout]
      · rw [← hout]

theorem fallthrough_join_region_witness :
    (⟨"ATL", none, 5, some 30, none, false, false, some 500, some 100⟩ :
        HeatLoadRow).region = none ∧
    ((∃ e ∈ ([⟨"ISNE", 5, 500, 100⟩] : List DailyLoadRow),
        e.region = "ISNE" ∧
        e.day_utc = (⟨"ATL", none, 5, some 30, none, false, false,
          some 500, some 100⟩ : HeatLoadRow).day_utc ∧
        (⟨"ATL", none, 5, some 30, none, false, false, some 500, some 100⟩ :
          HeatLoadRow).daily_total_mwh = some e.daily_total_mwh ∧
        (⟨"ATL", none, 5, some 30, none, false, false, some 500, some 100⟩ :
          HeatLoadRow).daily_peak_mwh = some e.daily_peak_mwh) ∨
      ((⟨"ATL", none, 5, some 30, none, false, false, some 500, some 100⟩ :
          HeatLoadRow).daily_total_mwh = none ∧
        (⟨"ATL", none, 5, some 30, none, false, false, some 500, some 100⟩ :
          HeatLoadRow).daily_peak_mwh = none ∧
        ¬ ∃ e ∈ ([⟨"ISNE", 5, 500, 100⟩] : List DailyLoadRow),
          e.region = "ISNE" ∧
          e.day_utc = (⟨"ATL", none, 5, some 30, none, false, false,
            some 500, some 100⟩ : HeatLoadRow).day_utc)) := by
  exact fallthrough_join_region
    [⟨"ATL", 5, some 30, none, false, false⟩] [⟨"ISNE", 5, 500, 100⟩]
    ⟨"ATL", none, 5, some 30, none, false, false, some 500, some 100⟩
    (by simp [heat_load_daily, joinRegion, regionLabel, List.filter_cons])
    (by simp) (by simp)

/-! ### Load aggregation invariants -/

theorem foldl_max_le_add (vs : List ℚ) :
    ∀ acc : ℚ, 0 ≤ acc → (∀ v ∈ vs, 0 ≤ v) →
      vs.foldl max acc ≤ acc + vs.sum := by
  induction vs with
  | nil =>
    intro acc _ _
    simp
  | cons v t ih =>
    intro acc hacc hvs
    rw [List.foldl_cons, List.sum_cons]
    have hv : 0 ≤ v := hvs v (List.mem_cons_self v t)
    have h1 : max acc v ≤ acc + v :=
      max_le (le_add_of_nonneg_right hv) (le_add_of_nonneg_left hacc)
    have h2 := ih (max acc v) (le_trans hacc (le_max_left _ _))
      (fun w hw => hvs w (List.mem_cons_of_mem v hw))
    calc t.foldl max (max acc v) ≤ max acc v + t.sum := h2
      _ ≤ acc + v + t.sum := by linarith
      _ = acc + (v + t.sum) := by ring

theorem listMaxQ_le_sum (vs : List ℚ) (hne : vs ≠ [])
    (hv : ∀ v ∈ vs, 0 ≤ v) : listMaxQ vs ≤ vs.sum := by
  match vs, hne with
  | x :: xs, _ =>
    show xs.foldl max x ≤ (x :: xs).sum
    rw [List.sum_cons]
    exact foldl_max_le_add xs x (hv x (List.mem_cons_self x xs))
      (fun w hw => hv w (List.mem_cons_of_mem x hw))

/-- C9 amended: for every row of the daily load table, if every hourly
reading feeding that (region, day) group is nonnegative (in particular
when a positive reading exists and no negative one does), then
`daily_peak_mwh ≤ daily_total_mwh`. -/
theorem peak_le_total_of_nonneg (rows : List LoadHourlyRow) :
    ∀ out ∈ build_eia_daily_load rows,
      (∀ r ∈ rows, r.region = out.region →
        dayOfHour r.hour_utc = out.day_utc → 0 ≤ r.load_mwh) →
      out.daily_peak_mwh ≤ out.daily_total_mwh := by
  intro out ho hpos
  unfold build_eia_daily_load at ho
  rcases List.mem_map.mp ho with ⟨k, hk, hko⟩
  have hreg : out.region = k.1 := by rw [← hko]
  have hday : out.day_utc = k.2 := by rw [← hko]
  have hpeak : out.daily_peak_mwh = listMaxQ ((rows.dedup.filter (fun r =>
      r.region == k.1 && dayOfHour r.hour_utc == k.2)).map
      (fun r => r.load_mwh)) := by rw [← hko]
  have htot : out.daily_total_mwh = ((rows.dedup.filter (fun r =>
      r.region == k.1 && dayOfHour r.hour_utc == k.2)).map
      (fun r => r.load_mwh)).sum := by rw [← hko]
  have hvpos : ∀ v ∈ (rows.dedup.filter (fun r =>
      r.region == k.1 && dayOfHour r.hour_utc == k.2)).map
      (fun r => r.load_mwh), 0 ≤ v := by
    intro v hv
    rcases List.mem_map.mp hv with ⟨r, hrf, hrv⟩
    rcases List.mem_filter.mp hrf with ⟨hrd, hrp⟩
    simp only [Bool.and_eq_true, beq_iff_eq] at hrp
    rw [← hrv]
    exact hpos r (List.mem_dedup.mp hrd) (by rw [hrp.1, hreg])
      (by rw [hrp.2, hday])
  have hne : (rows.dedup.filter (fun r =>
      r.region == k.1 && dayOfHour r.hour_utc == k.2)).map
      (fun r => r.load_mwh) ≠ [] := by
    unfold loadKeys at hk
    rcases List.mem_map.mp (List.mem_dedup.mp hk) with ⟨r, hrd, hrk⟩
    have hrf : r ∈ rows.dedup.filter (fun r =>
        r.region == k.1 && dayOfHour r.hour_utc == k.2) := by
      refine List.mem_filter.mpr ⟨hrd, ?_⟩
      rw [← hrk]
      simp
    intro h0
    have hl : rows.dedup.filter (fun r =>
        r.region == k.1 && dayOfHour r.hour_utc == k.2) = [] := by
      simpa using h0
    rw [hl] at hrf
    exact List.not_mem_nil _ hrf
  rw [hpeak, htot]
  exact listMaxQ_le_sum _ hne hvpos

theorem peak_le_total_of_nonneg_witness :
    (⟨"PJM", 0, 100, 100⟩ : DailyLoadRow)
      ∈ build_eia_daily_load [⟨"PJM", 0, 100⟩] ∧
    (⟨"PJM", 0, 100, 100⟩ : DailyLoadRow).daily_peak_mwh ≤
      (⟨"PJM", 0, 100, 100⟩ : DailyLoadRow).daily_total_mwh := by
  have hb : build_eia_daily_load [⟨"PJM", 0, 100⟩]
      = [⟨"PJM", 0, 100, 100⟩] := by
    with_unfolding_all decide
  have hmem : (⟨"PJM", 0, 100, 100⟩ : DailyLoadRow)
      ∈ build_eia_daily_load [⟨"PJM", 0, 100⟩] := by
    rw [hb]
    exact List.mem_singleton.mpr rfl
  refine ⟨hmem, ?_⟩
  exact peak_le_total_of_nonneg [⟨"PJM", 0, 100⟩] _ hmem
    (by intro r hr _ _; rcases List.mem_singleton.mp hr with rfl; norm_num)

/-! ### Daily aggregator row counts -/

theorem filter_dedup_comm {α : Type} [DecidableEq α] (p : α → Bool) :
    ∀ l : List α, l.dedup.filter p = (l.filter p).dedup := by
  intro l
  induction l with
  | nil => rfl
  | cons a t ih =>
    by_cases hm : a ∈ t
    · rw [List.dedup_cons_of_mem hm, ih, List.filter_cons]
      by_cases hp : p a
      · rw [if_pos hp]
        have hmf : a ∈ t.filter p := List.mem_filter.mpr ⟨hm, hp⟩
        rw [List.dedup_cons_of_mem hmf]
      · rw [if_neg hp]
    · rw [List.dedup_cons_of_not_mem hm, List.filter_cons, List.filter_cons]
      by_cases hp : p a
      · rw [if_pos hp, if_pos hp]
        have hnf : a ∉ t.filter p := fun hx => hm (List.mem_filter.mp hx).1
        rw [List.dedup_cons_of_not_mem hnf, ih]
      · rw [if_neg hp, if_neg hp, ih]

/-- C5 amended: for every station, the daily temperature table holds one
row per distinct calendar day that has at least one hourly row for that
station — whether or not any of those hourly readings is non-null (a day
whose readings are all null still produces a row, with null aggregates). -/
theorem noaa_daily_row_count (rows : List HourlyAvgRow) (st : String) :
    ((build_noaa_daily rows).filter (fun r => r.station == st)).length
      = (((rows.filter (fun r => r.station == st)).map
          (fun r => (r.station, dayOfHour r.hour_utc))).dedup).length := by
  unfold build_noaa_daily
  rw [← List.countP_eq_length_filter, List.countP_map]
  show List.countP (fun k : String × Int => k.1 == st) (dailyKeys rows) = _
  rw [List.countP_eq_length_filter]
  unfold dailyKeys
  rw [filter_dedup_comm, List.filter_map]
  rfl

/-- C7 amended: the cleaned temperature is null for every raw TMP field
whose first comma-separated part is the sentinel `+9999`; a field whose
first part is `-9999` is not caught by the sentinel test and cleans to
`-999.9` instead of null. -/
theorem sentinel_cleaning (s : String) :
    (split_part1 s = "+9999" → temp_C_expr s = none) ∧
    (split_part1 s = "-9999" → temp_C_expr s = some (-(9999 / 10 : ℚ))) := by
  constructor
  · intro h
    rw [temp_C_expr, if_pos h]
  · intro h
    rw [temp_C_expr, h, if_neg (by decide),
      show try_cast_int "-9999" = some (-9999) by decide]
    norm_num

theorem sentinel_cleaning_witness :
    temp_C_expr "+9999,1" = none ∧
    temp_C_expr "-9999,1" = some (-(9999 / 10 : ℚ)) :=
  ⟨(sentinel_cleaning "+9999,1").1 (by decide),
   (sentinel_cleaning "-9999,1").2 (by decide)⟩

end HeatGrid
